import Mathlib

/-
Shallow embedding of src/lib/uring/uring_stubs.c (the C binding layer of
ocaml-uring).  The liburing/kernel side is an external trusted peer: every
stub call that consults the kernel takes the kernel reply as an explicit
oracle argument (the return code of the liburing call, and the contents of
the completion entry it hands over).  The OCaml heap values the stubs touch
are modelled as explicit state passed in and out.
-/

set_option autoImplicit false

namespace Uring

/-- Linux errno value EAGAIN, as tested by the completion-retrieval stubs. -/
def EAGAIN : Nat := 11

/-- Linux errno value EINTR, as tested by the completion-retrieval stubs. -/
def EINTR : Nat := 4

/-- Linux errno value ETIME, additionally tested by ocaml_uring_wait_cqe_timeout. -/
def ETIME : Nat := 62

/-- Flag SOCK_CLOEXEC (octal 02000000) passed by ocaml_uring_submit_accept. -/
def SOCK_CLOEXEC : Nat := 524288

/-- Size in bytes of union sock_addr_union (dominated by struct sockaddr_un
on Linux); the value ocaml_uring_submit_accept stores into the handle length. -/
def sizeof_sock_addr_union : Nat := 110

/-- Address family constant for AF_UNIX. -/
def AF_UNIX : Nat := 1

/-- Address family constant for AF_INET. -/
def AF_INET : Nat := 2

/-- Native socket address as stored in union sock_addr_union: an address
family tag and the remaining payload bytes. -/
structure NativeSockAddr where
  family : Nat
  bytes : List Nat
deriving DecidableEq, Repr

/-- The C struct sock_addr_data held behind the uring.sockaddr custom block:
the native address and its stored length. -/
structure SockAddrData where
  sock_addr_addr : NativeSockAddr
  sock_addr_len : Nat
deriving DecidableEq, Repr

/-- The C struct open_how_data held behind the uring.open_how custom block:
the open_how fields followed by the path bytes. -/
structure OpenHowData where
  flags : Int
  mode : Int
  resolve : Int
  path : List Nat
deriving DecidableEq, Repr

/-- OCaml-level Unix.sockaddr value as seen by get_sockaddr/alloc_sockaddr:
a unix-domain path or an IPv4 address (payload bytes) with a port. -/
inductive OCamlSockAddr where
  | addr_unix (path : List Nat)
  | addr_inet (ip : List Nat) (port : Nat)
deriving DecidableEq, Repr

/-- Modelled from the spec: get_sockaddr is the OCaml-runtime translation
(outside this repository) of a Unix.sockaddr into the kernel-native
sock_addr_union plus its length; per the §6 wire contract it writes the
family tag, then the payload (for inet: 2 port bytes in network order, then
the address bytes), and reports the native length. -/
def get_sockaddr : OCamlSockAddr → NativeSockAddr × Nat
  | .addr_unix path => (⟨AF_UNIX, path⟩, 2 + path.length)
  | .addr_inet ip port => (⟨AF_INET, [port / 256 % 256, port % 256] ++ ip⟩, 16)

/-- Modelled from the spec: alloc_sockaddr is the inverse OCaml-runtime
translation (outside this repository) from a native address and its length
back to a Unix.sockaddr, dispatching on the stored family tag. -/
def alloc_sockaddr (n : NativeSockAddr) (len : Nat) : OCamlSockAddr :=
  if n.family = AF_UNIX then
    .addr_unix (n.bytes.take (len - 2))
  else
    .addr_inet (n.bytes.drop 2) (n.bytes.headD 0 * 256 + (n.bytes.drop 1).headD 0)

/-- Submission-queue entry payload, one constructor per io_uring_prep call
issued by the stubs, carrying exactly the fields the stub passes. -/
inductive SQEOp where
  | nop
  | openat2 (fd : Int) (how : OpenHowData)
  | close (fd : Int)
  | poll_add (fd : Int) (mask : Int)
  | readv (fd : Int) (iov : List (Nat × Nat)) (off : Int)
  | writev (fd : Int) (iov : List (Nat × Nat)) (off : Int)
  | read_fixed (fd : Int) (bufoff : Int) (len : Int) (fileoff : Int) (buf_index : Nat)
  | write_fixed (fd : Int) (bufoff : Int) (len : Int) (fileoff : Int) (buf_index : Nat)
  | splice (fd_in : Int) (off_in : Int) (fd_out : Int) (off_out : Int) (nbytes : Int) (splice_flags : Nat)
  | connect (fd : Int) (addr : SockAddrData)
  | accept (fd : Int) (flags : Nat)
  | cancel (target : Int) (flags : Nat)
deriving DecidableEq, Repr

/-- A populated submission-queue entry: the prepared operation plus the
user_data correlation id installed by io_uring_sqe_set_data. -/
structure SQE where
  op : SQEOp
  user_data : Int
deriving DecidableEq, Repr

/-- The live kernel ring object (struct io_uring) as the stubs observe it:
the submission-queue capacity and the entries obtained via io_uring_get_sqe
and filled but not yet flushed by io_uring_submit. -/
structure IoUring where
  sqCapacity : Nat
  sqPending : List SQE
deriving DecidableEq, Repr

/-- The custom block holding the ring pointer (Ring_val): some ring while
live, none after ocaml_uring_exit clears it. -/
structure RingState where
  ring : Option IoUring
deriving DecidableEq, Repr

/-- Result of running one stub: a clean return value, an OCaml unix_error
exception carrying an OS error code, or undefined behaviour (the stub
dereferenced the null ring pointer of a torn-down ring). -/
inductive Outcome (α : Type) where
  | ok (v : α)
  | raises (e : Nat)
  | fault
deriving DecidableEq, Repr

/-- A completion-queue entry as published by the kernel. -/
structure CQE where
  user_data : Int
  res : Int
deriving DecidableEq, Repr

/-- Kernel-side view of one successful completion handover: the entry
contents while the caller still owns the slot (before io_uring_cqe_seen),
and the value the res field holds when read after io_uring_cqe_seen has
returned the slot to the kernel, which may by then have recycled it. -/
structure CqeSuccess where
  cqe : CQE
  res_after_seen : Int
deriving DecidableEq, Repr

/-- Oracle for one liburing wait/peek call: success hands over a completion
slot; err e means the call returned the negative code -e (e positive). -/
inductive CqeOutcome where
  | ok (s : CqeSuccess)
  | err (e : Nat)
deriving DecidableEq, Repr

/-- OCaml value returned by the retrieval stubs: Val_cqe_none, or the
Val_cqe_some pair of correlation id and result. -/
inductive CqeVal where
  | cqe_none
  | cqe_some (id : Int) (res : Int)
deriving DecidableEq, Repr

/-- True when io_uring_get_sqe would return NULL: all capacity slots of the
submission queue are already filled and pending. -/
def sq_full (r : IoUring) : Bool :=
  r.sqCapacity ≤ r.sqPending.length

/-- Reserve the next submission slot, fill it with the prepared operation
and install the user_data id (io_uring_get_sqe + io_uring_prep_* +
io_uring_sqe_set_data on the success path). -/
def push (r : IoUring) (op : SQEOp) (id : Int) : IoUring :=
  { r with sqPending := r.sqPending ++ [⟨op, id⟩] }

/-- Ring state after a successful slot fill. -/
def pushState (r : IoUring) (op : SQEOp) (id : Int) : RingState :=
  ⟨some (push r op id)⟩

/-- ocaml_uring_setup: io_uring_queue_init with the requested entry count;
status is the kernel reply (0 on success, negative errno otherwise). -/
def ocaml_uring_setup (entries : Nat) (status : Int) : Outcome RingState :=
  if status = 0 then .ok ⟨some ⟨entries, []⟩⟩ else .raises (-status).toNat

/-- ocaml_uring_register_ba: io_uring_register_buffers on the ring; ret is
the kernel reply; nonzero ret is raised as unix_error(-ret). -/
def ocaml_uring_register_ba (st : RingState) (ret : Int) : Outcome Unit :=
  match st.ring with
  | none => .fault
  | some _ => if ret = 0 then .ok () else .raises (-ret).toNat

/-- ocaml_uring_unregister_ba: io_uring_unregister_buffers on the ring; ret
is the kernel reply; nonzero ret is raised as unix_error(-ret). -/
def ocaml_uring_unregister_ba (st : RingState) (ret : Int) : Outcome Unit :=
  match st.ring with
  | none => .fault
  | some _ => if ret = 0 then .ok () else .raises (-ret).toNat

/-- ocaml_uring_exit: if the ring pointer is non-null, tear the ring down,
free it and null the pointer; otherwise do nothing.  The Bool records
whether this call performed the release. -/
def ocaml_uring_exit (st : RingState) : RingState × Bool :=
  match st.ring with
  | some _ => (⟨none⟩, true)
  | none => (st, false)

/-- Ring state left behind by ocaml_uring_exit. -/
def exitState (st : RingState) : RingState :=
  (ocaml_uring_exit st).1

/-- ocaml_uring_submit_nop. -/
def ocaml_uring_submit_nop (st : RingState) (id : Int) : Outcome (RingState × Bool) :=
  match st.ring with
  | none => .fault
  | some r =>
    if sq_full r then .ok (st, false)
    else .ok (pushState r .nop id, true)

/-- ocaml_uring_make_open_how: pack the open_how fields and the path bytes
into one stable heap block. -/
def ocaml_uring_make_open_how (flags mode resolve : Int) (path : List Nat) : OpenHowData :=
  ⟨flags, mode, resolve, path⟩

/-- ocaml_uring_submit_openat2. -/
def ocaml_uring_submit_openat2 (st : RingState) (id : Int) (fd : Int) (how : OpenHowData) :
    Outcome (RingState × Bool) :=
  match st.ring with
  | none => .fault
  | some r =>
    if sq_full r then .ok (st, false)
    else .ok (pushState r (.openat2 fd how) id, true)

/-- ocaml_uring_submit_close. -/
def ocaml_uring_submit_close (st : RingState) (fd : Int) (id : Int) :
    Outcome (RingState × Bool) :=
  match st.ring with
  | none => .fault
  | some r =>
    if sq_full r then .ok (st, false)
    else .ok (pushState r (.close fd) id, true)

/-- ocaml_uring_submit_poll_add. -/
def ocaml_uring_submit_poll_add (st : RingState) (fd : Int) (id : Int) (mask : Int) :
    Outcome (RingState × Bool) :=
  match st.ring with
  | none => .fault
  | some r =>
    if sq_full r then .ok (st, false)
    else .ok (pushState r (.poll_add fd mask) id, true)

/-- ocaml_uring_submit_readv. -/
def ocaml_uring_submit_readv (st : RingState) (fd : Int) (id : Int)
    (iov : List (Nat × Nat)) (off : Int) : Outcome (RingState × Bool) :=
  match st.ring with
  | none => .fault
  | some r =>
    if sq_full r then .ok (st, false)
    else .ok (pushState r (.readv fd iov off) id, true)

/-- ocaml_uring_submit_writev. -/
def ocaml_uring_submit_writev (st : RingState) (fd : Int) (id : Int)
    (iov : List (Nat × Nat)) (off : Int) : Outcome (RingState × Bool) :=
  match st.ring with
  | none => .fault
  | some r =>
    if sq_full r then .ok (st, false)
    else .ok (pushState r (.writev fd iov off) id, true)

/-- ocaml_uring_submit_readv_fixed_native: io_uring_prep_read_fixed with
buf = base of the registered bigarray plus bufoff and buf_index 0. -/
def ocaml_uring_submit_readv_fixed_native (st : RingState) (fd : Int) (id : Int)
    (bufoff : Int) (len : Int) (fileoff : Int) : Outcome (RingState × Bool) :=
  match st.ring with
  | none => .fault
  | some r =>
    if sq_full r then .ok (st, false)
    else .ok (pushState r (.read_fixed fd bufoff len fileoff 0) id, true)

/-- ocaml_uring_submit_writev_fixed_native: io_uring_prep_write_fixed with
buf = base of the registered bigarray plus bufoff and buf_index 0. -/
def ocaml_uring_submit_writev_fixed_native (st : RingState) (fd : Int) (id : Int)
    (bufoff : Int) (len : Int) (fileoff : Int) : Outcome (RingState × Bool) :=
  match st.ring with
  | none => .fault
  | some r =>
    if sq_full r then .ok (st, false)
    else .ok (pushState r (.write_fixed fd bufoff len fileoff 0) id, true)

/-- ocaml_uring_submit_splice: io_uring_prep_splice with both offsets set
to the literal -1 and splice flags 0. -/
def ocaml_uring_submit_splice (st : RingState) (id : Int) (fd_in : Int) (fd_out : Int)
    (nbytes : Int) : Outcome (RingState × Bool) :=
  match st.ring with
  | none => .fault
  | some r =>
    if sq_full r then .ok (st, false)
    else .ok (pushState r (.splice fd_in (-1) fd_out (-1) nbytes 0) id, true)

/-- ocaml_uring_make_sockaddr: allocate a sock_addr_data block and fill it
through get_sockaddr from the given OCaml address. -/
def ocaml_uring_make_sockaddr (a : OCamlSockAddr) : SockAddrData :=
  let p := get_sockaddr a
  ⟨p.1, p.2⟩

/-- ocaml_uring_extract_sockaddr: rebuild the OCaml address via
alloc_sockaddr from the stored native address and length. -/
def ocaml_uring_extract_sockaddr (d : SockAddrData) : OCamlSockAddr :=
  alloc_sockaddr d.sock_addr_addr d.sock_addr_len

/-- ocaml_uring_submit_connect: the entry references the handle contents at
call time; the handle itself is not modified. -/
def ocaml_uring_submit_connect (st : RingState) (id : Int) (fd : Int) (sa : SockAddrData) :
    Outcome (RingState × Bool) :=
  match st.ring with
  | none => .fault
  | some r =>
    if sq_full r then .ok (st, false)
    else .ok (pushState r (.connect fd sa) id, true)

/-- ocaml_uring_submit_accept: the stub first overwrites the handle length
with sizeof(union sock_addr_union), then calls io_uring_get_sqe; the
updated handle is therefore returned on both the full and non-full paths. -/
def ocaml_uring_submit_accept (st : RingState) (id : Int) (fd : Int) (sa : SockAddrData) :
    Outcome (RingState × SockAddrData × Bool) :=
  match st.ring with
  | none => .fault
  | some r =>
    let sa2 := { sa with sock_addr_len := sizeof_sock_addr_union }
    if sq_full r then .ok (st, sa2, false)
    else .ok (pushState r (.accept fd SOCK_CLOEXEC) id, sa2, true)

/-- ocaml_uring_submit_cancel: io_uring_prep_cancel on the target id with
cancel flags 0. -/
def ocaml_uring_submit_cancel (st : RingState) (id : Int) (target : Int) :
    Outcome (RingState × Bool) :=
  match st.ring with
  | none => .fault
  | some r =>
    if sq_full r then .ok (st, false)
    else .ok (pushState r (.cancel target 0) id, true)

/-- ocaml_uring_submit: io_uring_submit flushes every pending entry to the
kernel and returns how many were submitted. -/
def ocaml_uring_submit (st : RingState) : Outcome (RingState × Nat) :=
  match st.ring with
  | none => .fault
  | some r => .ok (⟨some { r with sqPending := [] }⟩, r.sqPending.length)

/-- ocaml_uring_wait_cqe_timeout: on a negative liburing reply, EAGAIN,
EINTR and ETIME yield Val_cqe_none and anything else raises; on success the
stub reads user_data, calls io_uring_cqe_seen, and only then reads res, so
the returned result field is the post-seen slot value. -/
def ocaml_uring_wait_cqe_timeout (st : RingState) (k : CqeOutcome) : Outcome CqeVal :=
  match st.ring with
  | none => .fault
  | some _ =>
    match k with
    | .err e =>
      if e = EAGAIN ∨ e = EINTR ∨ e = ETIME then .ok .cqe_none
      else .raises e
    | .ok s => .ok (.cqe_some s.cqe.user_data s.res_after_seen)

/-- ocaml_uring_wait_cqe: on a negative liburing reply, EAGAIN and EINTR
yield Val_cqe_none and anything else raises; on success the stub reads
user_data, calls io_uring_cqe_seen, and only then reads res. -/
def ocaml_uring_wait_cqe (st : RingState) (k : CqeOutcome) : Outcome CqeVal :=
  match st.ring with
  | none => .fault
  | some _ =>
    match k with
    | .err e =>
      if e = EAGAIN ∨ e = EINTR then .ok .cqe_none
      else .raises e
    | .ok s => .ok (.cqe_some s.cqe.user_data s.res_after_seen)

/-- ocaml_uring_peek_cqe: same reply handling as ocaml_uring_wait_cqe, with
the non-blocking io_uring_peek_cqe underneath. -/
def ocaml_uring_peek_cqe (st : RingState) (k : CqeOutcome) : Outcome CqeVal :=
  match st.ring with
  | none => .fault
  | some _ =>
    match k with
    | .err e =>
      if e = EAGAIN ∨ e = EINTR then .ok .cqe_none
      else .raises e
    | .ok s => .ok (.cqe_some s.cqe.user_data s.res_after_seen)

/-- Modelled from the spec: the completion decoder the spec describes reads
the id and the result from the entry before marking it consumed, so the
pair it yields is taken entirely from the pre-seen slot contents. -/
def retrieval_spec (s : CqeSuccess) : Int × Int :=
  (s.cqe.user_data, s.cqe.res)

/-- Pair actually produced by the stubs on a successful retrieval: id from
the pre-seen slot, result from the post-seen slot. -/
def retrieval_code (s : CqeSuccess) : Int × Int :=
  (s.cqe.user_data, s.res_after_seen)

/-- Live test ring with capacity 4 and an empty submission queue. -/
def r0 : IoUring := ⟨4, []⟩

/-- Live test ring state. -/
def st0 : RingState := ⟨some r0⟩

/-- Test ring whose submission queue is full (capacity 1, one pending). -/
def rfull : IoUring := ⟨1, [⟨.nop, 0⟩]⟩

/-- Ring state with a full submission queue. -/
def stfull : RingState := ⟨some rfull⟩

/-- Torn-down ring state (null ring pointer). -/
def stnull : RingState := ⟨none⟩

end Uring

namespace Uring

/-- Helper: a second application of exitState changes nothing. -/
theorem exitState_idem (st : RingState) : exitState (exitState st) = exitState st := by
  cases h : st.ring <;> simp [exitState, ocaml_uring_exit, h]

/-- C6: teardown is idempotent: a second ocaml_uring_exit on the state left
by a first one is a no-op that performs no further release, and the state
after n + 1 teardown calls equals the state after one. -/
theorem C6_teardown_idempotent (st : RingState) (n : Nat) :
    ocaml_uring_exit (exitState st) = (exitState st, false)
    ∧ exitState^[n + 1] st = exitState st := by
  constructor
  · cases h : st.ring <;> simp [exitState, ocaml_uring_exit, h]
  · induction n with
    | zero => simp
    | succ m ih =>
        rw [Function.iterate_succ_apply', ih]
        exact exitState_idem st

/-- C1 counterexample: on a live ring, when the kernel wait is interrupted
by a signal (EINTR), ocaml_uring_wait_cqe returns the Val_cqe_none value to
the caller, refuting the claim that it never returns a no-completion
value. -/
theorem C1_wait_cqe_none_on_eintr :
    ocaml_uring_wait_cqe st0 (.err EINTR) = .ok .cqe_none := by decide

/-- C1 (amended): on a live ring, ocaml_uring_wait_cqe returns the
(id, result) pair when the kernel wait succeeds; when the kernel wait
reports EAGAIN or EINTR it returns Val_cqe_none; any other negative reply
raises the negated code. -/
theorem C1_wait_cqe_behaviour (st : RingState) (r : IoUring) (h : st.ring = some r)
    (s : CqeSuccess) (e : Nat) :
    ocaml_uring_wait_cqe st (.ok s) = .ok (.cqe_some s.cqe.user_data s.res_after_seen)
    ∧ ((e = EAGAIN ∨ e = EINTR) → ocaml_uring_wait_cqe st (.err e) = .ok .cqe_none)
    ∧ (¬(e = EAGAIN ∨ e = EINTR) → ocaml_uring_wait_cqe st (.err e) = .raises e) := by
  refine ⟨by simp [ocaml_uring_wait_cqe, h],
    fun he => by simp [ocaml_uring_wait_cqe, h, he],
    fun he => by simp [ocaml_uring_wait_cqe, h, he]⟩

/-- C1 witness: the amended behaviour evaluated on a concrete successful
handover. -/
theorem C1_wait_cqe_behaviour_witness :
    ocaml_uring_wait_cqe st0 (.ok ⟨⟨5, 7⟩, 7⟩) = .ok (.cqe_some 5 7) :=
  (C1_wait_cqe_behaviour st0 r0 rfl ⟨⟨5, 7⟩, 7⟩ 0).1

/-- C5: on a live ring, ocaml_uring_wait_cqe_timeout returns the
(id, result) pair on every successful kernel reply, and on a negative
kernel reply it returns Val_cqe_none exactly when the code is EAGAIN,
EINTR or ETIME. -/
theorem C5_wait_cqe_timeout_cases (st : RingState) (r : IoUring) (h : st.ring = some r)
    (s : CqeSuccess) (e : Nat) (he : 0 < e) :
    ocaml_uring_wait_cqe_timeout st (.ok s)
        = .ok (.cqe_some s.cqe.user_data s.res_after_seen)
    ∧ (ocaml_uring_wait_cqe_timeout st (.err e) = .ok .cqe_none
        ↔ (e = EAGAIN ∨ e = EINTR ∨ e = ETIME)) := by
  constructor
  · simp [ocaml_uring_wait_cqe_timeout, h]
  · constructor
    · intro hc
      by_contra hn
      simp [ocaml_uring_wait_cqe_timeout, h, hn] at hc
    · intro hc
      simp [ocaml_uring_wait_cqe_timeout, h, hc]

/-- C5 witness: on a live ring an ETIME reply from the kernel yields the
no-completion value. -/
theorem C5_wait_cqe_timeout_cases_witness :
    ocaml_uring_wait_cqe_timeout st0 (.err ETIME) = .ok .cqe_none :=
  (C5_wait_cqe_timeout_cases st0 r0 rfl ⟨⟨0, 0⟩, 0⟩ ETIME (by decide)).2.mpr (by decide)

/-- C10: on a live ring, the plain wait and the peek return Val_cqe_none
exactly on EAGAIN or EINTR and raise the negated code on any other
negative kernel reply; the timeout variant additionally accepts ETIME. -/
theorem C10_retrieval_error_policy (st : RingState) (r : IoUring) (h : st.ring = some r)
    (e : Nat) (he : 0 < e) :
    ((e = EAGAIN ∨ e = EINTR) →
        ocaml_uring_wait_cqe st (.err e) = .ok .cqe_none
        ∧ ocaml_uring_peek_cqe st (.err e) = .ok .cqe_none)
    ∧ (¬(e = EAGAIN ∨ e = EINTR) →
        ocaml_uring_wait_cqe st (.err e) = .raises e
        ∧ ocaml_uring_peek_cqe st (.err e) = .raises e)
    ∧ ((e = EAGAIN ∨ e = EINTR ∨ e = ETIME) →
        ocaml_uring_wait_cqe_timeout st (.err e) = .ok .cqe_none)
    ∧ (¬(e = EAGAIN ∨ e = EINTR ∨ e = ETIME) →
        ocaml_uring_wait_cqe_timeout st (.err e) = .raises e) := by
  refine ⟨fun hc => ⟨?_, ?_⟩, fun hc => ⟨?_, ?_⟩, fun hc => ?_, fun hc => ?_⟩ <;>
    simp [ocaml_uring_wait_cqe, ocaml_uring_peek_cqe, ocaml_uring_wait_cqe_timeout, h, hc]

/-- C10 witness: a kernel reply of -99 (unrecognised) makes the blocking
wait raise error 99. -/
theorem C10_retrieval_error_policy_witness :
    ocaml_uring_wait_cqe st0 (.err 99) = .raises 99 :=
  ((C10_retrieval_error_policy st0 r0 rfl 99 (by decide)).2.1 (by decide)).1

/-- C3: at a concrete retrieval where the completion entry holds result 0
before io_uring_cqe_seen and the recycled slot holds 7 afterwards, the
stub returns result 7, while the extraction described by the spec (read
the result before marking the entry consumed) yields 0. -/
theorem C3_res_read_after_seen :
    ocaml_uring_peek_cqe st0 (.ok ⟨⟨5, 0⟩, 7⟩) = .ok (.cqe_some 5 7)
    ∧ retrieval_code ⟨⟨5, 0⟩, 7⟩ ≠ retrieval_spec ⟨⟨5, 0⟩, 7⟩
    ∧ retrieval_spec ⟨⟨5, 0⟩, 7⟩ = (5, 0) := by decide

/-- C8: on a live ring with a free slot, the splice encoder fills the entry
with both offset fields set to the sentinel -1, the given byte count, and
splice flags 0. -/
theorem C8_splice_offsets (st : RingState) (r : IoUring) (h : st.ring = some r)
    (hfree : sq_full r = false) (id fd_in fd_out nbytes : Int) :
    ocaml_uring_submit_splice st id fd_in fd_out nbytes
      = .ok (pushState r (.splice fd_in (-1) fd_out (-1) nbytes 0) id, true) := by
  simp [ocaml_uring_submit_splice, h, hfree]

/-- C8 witness: the splice encoder evaluated on a concrete live ring. -/
theorem C8_splice_offsets_witness :
    ocaml_uring_submit_splice st0 3 1 2 4096
      = .ok (pushState r0 (.splice 1 (-1) 2 (-1) 4096 0) 3, true) :=
  C8_splice_offsets st0 r0 rfl (by decide) 3 1 2 4096

/-- C9: the accept encoder overwrites the handle length with
sizeof(union sock_addr_union) before the slot check, so the mutated handle
is observable both when it returns false (ring full) and when it returns
true. -/
theorem C9_accept_overwrites_len (st : RingState) (r : IoUring) (h : st.ring = some r)
    (id fd : Int) (sa : SockAddrData) :
    (sq_full r = true →
        ocaml_uring_submit_accept st id fd sa
          = .ok (st, { sa with sock_addr_len := sizeof_sock_addr_union }, false))
    ∧ (sq_full r = false →
        ocaml_uring_submit_accept st id fd sa
          = .ok (pushState r (.accept fd SOCK_CLOEXEC) id,
                 { sa with sock_addr_len := sizeof_sock_addr_union }, true)) := by
  constructor <;> intro hf <;> simp [ocaml_uring_submit_accept, h, hf]

/-- C9 witness: on a concrete full ring the accept encoder returns false
yet hands back the handle with its length reset to 110. -/
theorem C9_accept_overwrites_len_witness :
    ocaml_uring_submit_accept stfull 1 3 ⟨⟨AF_INET, [0, 80, 127, 0, 0, 1]⟩, 16⟩
      = .ok (stfull, ⟨⟨AF_INET, [0, 80, 127, 0, 0, 1]⟩, 110⟩, false) :=
  (C9_accept_overwrites_len stfull rfull rfl 1 3
    ⟨⟨AF_INET, [0, 80, 127, 0, 0, 1]⟩, 16⟩).1 (by decide)

end Uring

namespace Uring

/-- C2 counterexample: teardown leaves the null ring pointer behind, and a
subsequent slot acquisition dereferences it (undefined behaviour) instead
of failing, refuting the claim that every post-teardown operation fails. -/
theorem C2_post_teardown_fault :
    exitState st0 = stnull
    ∧ ocaml_uring_submit_nop stnull 7 = .fault
    ∧ ocaml_uring_submit stnull = .fault := by decide

/-- C2 (amended): after teardown the ring pointer is null; teardown itself
is a guarded no-op on that state, but every other stub performs no
liveness check and dereferences the null ring pointer (undefined
behaviour) rather than failing. -/
theorem C2_torn_down_operations (st : RingState) (h : st.ring = none)
    (id fd fd2 mask target bufoff len fileoff nbytes off : Int)
    (iov : List (Nat × Nat)) (how : OpenHowData) (sa : SockAddrData)
    (k : CqeOutcome) (ret : Int) :
    ocaml_uring_submit_nop st id = .fault
    ∧ ocaml_uring_submit_openat2 st id fd how = .fault
    ∧ ocaml_uring_submit_close st fd id = .fault
    ∧ ocaml_uring_submit_poll_add st fd id mask = .fault
    ∧ ocaml_uring_submit_readv st fd id iov off = .fault
    ∧ ocaml_uring_submit_writev st fd id iov off = .fault
    ∧ ocaml_uring_submit_readv_fixed_native st fd id bufoff len fileoff = .fault
    ∧ ocaml_uring_submit_writev_fixed_native st fd id bufoff len fileoff = .fault
    ∧ ocaml_uring_submit_splice st id fd fd2 nbytes = .fault
    ∧ ocaml_uring_submit_connect st id fd sa = .fault
    ∧ ocaml_uring_submit_accept st id fd sa = .fault
    ∧ ocaml_uring_submit_cancel st id target = .fault
    ∧ ocaml_uring_submit st = .fault
    ∧ ocaml_uring_wait_cqe st k = .fault
    ∧ ocaml_uring_wait_cqe_timeout st k = .fault
    ∧ ocaml_uring_peek_cqe st k = .fault
    ∧ ocaml_uring_register_ba st ret = .fault
    ∧ ocaml_uring_unregister_ba st ret = .fault
    ∧ ocaml_uring_exit st = (st, false) := by
  simp [ocaml_uring_submit_nop, ocaml_uring_submit_openat2, ocaml_uring_submit_close,
    ocaml_uring_submit_poll_add, ocaml_uring_submit_readv, ocaml_uring_submit_writev,
    ocaml_uring_submit_readv_fixed_native, ocaml_uring_submit_writev_fixed_native,
    ocaml_uring_submit_splice, ocaml_uring_submit_connect, ocaml_uring_submit_accept,
    ocaml_uring_submit_cancel, ocaml_uring_submit, ocaml_uring_wait_cqe,
    ocaml_uring_wait_cqe_timeout, ocaml_uring_peek_cqe, ocaml_uring_register_ba,
    ocaml_uring_unregister_ba, ocaml_uring_exit, h]

/-- C2 witness: the amended behaviour evaluated on the concrete torn-down
state. -/
theorem C2_torn_down_operations_witness :
    ocaml_uring_submit_nop stnull 0 = .fault :=
  (C2_torn_down_operations stnull rfl 0 0 0 0 0 0 0 0 0 0 [] ⟨0, 0, 0, []⟩
    ⟨⟨0, []⟩, 0⟩ (.err 0) 0).1

/-- C4 counterexample: on a full ring the accept encoder returns false yet
hands back the socket-address handle with its stored length overwritten,
refuting the claim that no observable state is modified on a false
return. -/
theorem C4_accept_mutates_on_false :
    ocaml_uring_submit_accept stfull 1 3 ⟨⟨AF_UNIX, [97]⟩, 3⟩
      = .ok (stfull, ⟨⟨AF_UNIX, [97]⟩, 110⟩, false)
    ∧ (⟨⟨AF_UNIX, [97]⟩, 110⟩ : SockAddrData) ≠ ⟨⟨AF_UNIX, [97]⟩, 3⟩ := by decide

/-- C4 (amended): on a live ring every encoder returns false exactly when
the submission queue is full and true (appending the filled entry)
otherwise, and on the false path the ring is unchanged; every encoder
except accept leaves its arguments untouched on the false path, while the
accept encoder overwrites the handle length before the slot check, so the
mutated handle is returned on both paths. -/
theorem C4_encoder_slot_discipline (st : RingState) (r : IoUring) (h : st.ring = some r)
    (id fd fd2 mask target bufoff len fileoff nbytes off : Int)
    (iov : List (Nat × Nat)) (how : OpenHowData) (sa : SockAddrData) :
    (sq_full r = true →
        ocaml_uring_submit_nop st id = .ok (st, false)
        ∧ ocaml_uring_submit_openat2 st id fd how = .ok (st, false)
        ∧ ocaml_uring_submit_close st fd id = .ok (st, false)
        ∧ ocaml_uring_submit_poll_add st fd id mask = .ok (st, false)
        ∧ ocaml_uring_submit_readv st fd id iov off = .ok (st, false)
        ∧ ocaml_uring_submit_writev st fd id iov off = .ok (st, false)
        ∧ ocaml_uring_submit_readv_fixed_native st fd id bufoff len fileoff = .ok (st, false)
        ∧ ocaml_uring_submit_writev_fixed_native st fd id bufoff len fileoff = .ok (st, false)
        ∧ ocaml_uring_submit_splice st id fd fd2 nbytes = .ok (st, false)
        ∧ ocaml_uring_submit_connect st id fd sa = .ok (st, false)
        ∧ ocaml_uring_submit_cancel st id target = .ok (st, false)
        ∧ ocaml_uring_submit_accept st id fd sa
            = .ok (st, { sa with sock_addr_len := sizeof_sock_addr_union }, false))
    ∧ (sq_full r = false →
        ocaml_uring_submit_nop st id = .ok (pushState r .nop id, true)
        ∧ ocaml_uring_submit_openat2 st id fd how
            = .ok (pushState r (.openat2 fd how) id, true)
        ∧ ocaml_uring_submit_close st fd id = .ok (pushState r (.close fd) id, true)
        ∧ ocaml_uring_submit_poll_add st fd id mask
            = .ok (pushState r (.poll_add fd mask) id, true)
        ∧ ocaml_uring_submit_readv st fd id iov off
            = .ok (pushState r (.readv fd iov off) id, true)
        ∧ ocaml_uring_submit_writev st fd id iov off
            = .ok (pushState r (.writev fd iov off) id, true)
        ∧ ocaml_uring_submit_readv_fixed_native st fd id bufoff len fileoff
            = .ok (pushState r (.read_fixed fd bufoff len fileoff 0) id, true)
        ∧ ocaml_uring_submit_writev_fixed_native st fd id bufoff len fileoff
            = .ok (pushState r (.write_fixed fd bufoff len fileoff 0) id, true)
        ∧ ocaml_uring_submit_splice st id fd fd2 nbytes
            = .ok (pushState r (.splice fd (-1) fd2 (-1) nbytes 0) id, true)
        ∧ ocaml_uring_submit_connect st id fd sa
            = .ok (pushState r (.connect fd sa) id, true)
        ∧ ocaml_uring_submit_cancel st id target
            = .ok (pushState r (.cancel target 0) id, true)
        ∧ ocaml_uring_submit_accept st id fd sa
            = .ok (pushState r (.accept fd SOCK_CLOEXEC) id,
                   { sa with sock_addr_len := sizeof_sock_addr_union }, true)) := by
  constructor <;> intro hf <;>
    simp [ocaml_uring_submit_nop, ocaml_uring_submit_openat2, ocaml_uring_submit_close,
      ocaml_uring_submit_poll_add, ocaml_uring_submit_readv, ocaml_uring_submit_writev,
      ocaml_uring_submit_readv_fixed_native, ocaml_uring_submit_writev_fixed_native,
      ocaml_uring_submit_splice, ocaml_uring_submit_connect, ocaml_uring_submit_accept,
      ocaml_uring_submit_cancel, h, hf]

/-- C4 witness: the amended discipline evaluated on a concrete full ring. -/
theorem C4_encoder_slot_discipline_witness :
    ocaml_uring_submit_nop stfull 5 = .ok (stfull, false) :=
  ((C4_encoder_slot_discipline stfull rfull rfl 5 0 0 0 0 0 0 0 0 0 [] ⟨0, 0, 0, []⟩
    ⟨⟨0, []⟩, 0⟩).1 (by decide)).1

/-- Well-formedness of an OCaml socket address: an inet port fits in 16
bits (guaranteed by the runtime conversion through htons). -/
def WFSockAddr : OCamlSockAddr → Prop
  | .addr_unix _ => True
  | .addr_inet _ port => port < 65536

/-- C7: constructing a socket-address handle and extracting it back is the
identity on well-formed addresses: the family, the payload bytes and the
stored length all survive the round trip. -/
theorem C7_sockaddr_roundtrip (a : OCamlSockAddr) (hw : WFSockAddr a) :
    ocaml_uring_extract_sockaddr (ocaml_uring_make_sockaddr a) = a := by
  cases a with
  | addr_unix path =>
      have hl : 2 + path.length - 2 = path.length := by omega
      simp [ocaml_uring_extract_sockaddr, ocaml_uring_make_sockaddr, get_sockaddr,
        alloc_sockaddr, AF_UNIX, hl]
  | addr_inet ip port =>
      have hp : port < 65536 := hw
      simp [ocaml_uring_extract_sockaddr, ocaml_uring_make_sockaddr, get_sockaddr,
        alloc_sockaddr, AF_UNIX, AF_INET]
      omega

/-- C7 witness: the round trip evaluated on a concrete IPv4 address. -/
theorem C7_sockaddr_roundtrip_witness :
    ocaml_uring_extract_sockaddr (ocaml_uring_make_sockaddr (.addr_inet [127, 0, 0, 1] 8080))
      = .addr_inet [127, 0, 0, 1] 8080 :=
  C7_sockaddr_roundtrip (.addr_inet [127, 0, 0, 1] 8080) (by show (8080 : Nat) < 65536; decide)

end Uring
